import Mathlib

/-!
Verification development for the PlaybackDownloader repository
(`src/playback_downloader.py`).  The Python source is shallowly embedded:
dictionaries become association lists (`dictGet` / `dictSet` mirror Python
dict lookup and in-place update), the in-memory ledger
`downloaded_files_db_data["channels"]` becomes `Ledger`, and the string keys
produced by Python's `str(channel)` / `str(page)` become `pyStr`.
-/

set_option maxRecDepth 10000

/-- Python dict lookup (`d[k]` / `k in d`): the first binding of `k`. -/
def dictGet {α : Type} (d : List (String × α)) (k : String) : Option α :=
  match d with
  | [] => none
  | (k', v) :: rest => if k' = k then some v else dictGet rest k

/-- Python dict in-place update `d[k] = v`: replace the binding of `k`,
appending a new binding at the end when `k` is absent (dict insertion
order). -/
def dictSet {α : Type} (d : List (String × α)) (k : String) (v : α) :
    List (String × α) :=
  match d with
  | [] => [(k, v)]
  | (k', v') :: rest => if k' = k then (k, v) :: rest else (k', v') :: dictSet rest k v

/-- Decimal digit characters of `n`, most significant first; `fuel` bounds
the recursion and any `fuel > n` is enough. -/
def pyStrCore : Nat → Nat → List Char
  | 0, _ => []
  | fuel + 1, n =>
    if n / 10 = 0 then [Nat.digitChar (n % 10)]
    else pyStrCore fuel (n / 10) ++ [Nat.digitChar (n % 10)]

/-- Python's `str(n)` for a natural number: its decimal digit string. -/
def pyStr (n : Nat) : String :=
  (pyStrCore (n + 1) n).asString

/-- The value stored under one channel key: a dict that may or may not have
the `"pages"` key, whose value maps page keys to filename lists. -/
structure ChannelData where
  pages : Option (List (String × List String))
  deriving DecidableEq

/-- `downloaded_files_db_data["channels"]`:
channel key -> channel data (page key -> filenames). -/
def Ledger : Type := List (String × ChannelData)

instance : DecidableEq Ledger := by
  unfold Ledger
  infer_instance

/-- `DeviceScraper.is_file_downloaded` (src lines 138-159): membership of
`filename` in the list stored for `(str(channel), str(page))`, `False`
when the channel key, the `"pages"` key or the page key is missing. -/
def is_file_downloaded (db : Ledger) (channel page : Nat) (filename : String) :
    Bool :=
  match dictGet db (pyStr channel) with
  | none => false
  | some cd =>
    match cd.pages with
    | none => false
    | some pgs =>
      match dictGet pgs (pyStr page) with
      | none => false
      | some files => files.contains filename

/-- `mark_file_downloaded`, step 1: ensure the channel entry exists
(`if channel_key not in ...["channels"]: ... = {"pages": {}}`). -/
def markDb1 (db : Ledger) (channel : Nat) : Ledger :=
  match dictGet db (pyStr channel) with
  | none => dictSet db (pyStr channel) ⟨some []⟩
  | some _ => db

/-- `mark_file_downloaded`, step 2: `channel_data` after ensuring the
channel entry (the default is never used: the key is present). -/
def markCd (db : Ledger) (channel : Nat) : ChannelData :=
  (dictGet (markDb1 db channel) (pyStr channel)).getD ⟨some []⟩

/-- `mark_file_downloaded`, step 3: the `"pages"` dict, created empty when
missing (`if "pages" not in channel_data: channel_data["pages"] = {}`). -/
def markPgs (db : Ledger) (channel : Nat) : List (String × List String) :=
  (markCd db channel).pages.getD []

/-- `mark_file_downloaded`, step 4: ensure the page entry exists
(`if page_key not in channel_data["pages"]: ... = []`). -/
def markPgs1 (db : Ledger) (channel page : Nat) : List (String × List String) :=
  match dictGet (markPgs db channel) (pyStr page) with
  | none => dictSet (markPgs db channel) (pyStr page) []
  | some _ => markPgs db channel

/-- `mark_file_downloaded`, step 5: the page's filename list. -/
def markFiles (db : Ledger) (channel page : Nat) : List String :=
  (dictGet (markPgs1 db channel page) (pyStr page)).getD []

/-- `mark_file_downloaded`, step 6: append `filename` only when absent
(`if filename not in channel_data["pages"][page_key]: ....append(...)`). -/
def markFiles1 (db : Ledger) (channel page : Nat) (filename : String) :
    List String :=
  if (markFiles db channel page).contains filename then markFiles db channel page
  else markFiles db channel page ++ [filename]

/-- `DeviceScraper.mark_file_downloaded` (src lines 161-188): create the
channel entry, the `"pages"` dict and the page list when missing, then
append `filename` to the page list only when it is not already present.
The Python mutates the nested dicts in place; the composite effect is to
store the updated page dict back under the channel key.  (The
`save_downloaded_files_db` call on a fresh append is durable IO and has no
effect on the in-memory ledger modelled here.) -/
def mark_file_downloaded (db : Ledger) (channel page : Nat) (filename : String) :
    Ledger :=
  dictSet (markDb1 db channel) (pyStr channel)
    ⟨some (dictSet (markPgs1 db channel page) (pyStr page)
      (markFiles1 db channel page filename))⟩

/-- `DeviceScraper.get_page_stats` (src lines 190-207): the count and list
of filenames recorded for `(str(channel), str(page))`. -/
def get_page_stats (db : Ledger) (channel page : Nat) : Nat × List String :=
  match dictGet db (pyStr channel) with
  | none => (0, [])
  | some cd =>
    match cd.pages with
    | none => (0, [])
    | some pgs =>
      match dictGet pgs (pyStr page) with
      | none => (0, [])
      | some files => (files.length, files)

/-! ### Dictionary lemmas -/

theorem dictGet_set_self {α : Type} (d : List (String × α)) (k : String) (v : α) :
    dictGet (dictSet d k v) k = some v := by
  induction d with
  | nil => simp [dictGet, dictSet]
  | cons hd tl ih =>
    obtain ⟨k', v'⟩ := hd
    by_cases h : k' = k
    · simp [dictGet, dictSet, h]
    · simp [dictGet, dictSet, h, ih]

theorem dictGet_set_ne {α : Type} (d : List (String × α)) (k k' : String) (v : α)
    (h : k' ≠ k) : dictGet (dictSet d k v) k' = dictGet d k' := by
  induction d with
  | nil => simp [dictGet, dictSet, Ne.symm h]
  | cons hd tl ih =>
    obtain ⟨k0, v0⟩ := hd
    by_cases h0 : k0 = k
    · subst h0
      simp [dictGet, dictSet, Ne.symm h]
    · by_cases h1 : k0 = k'
      · simp [dictGet, dictSet, h0, h1, h]
      · simp [dictGet, dictSet, h0, h1, ih]

theorem dictSet_eq_of_get {α : Type} (d : List (String × α)) (k : String) (v : α)
    (h : dictGet d k = some v) : dictSet d k v = d := by
  induction d with
  | nil => simp [dictGet] at h
  | cons hd tl ih =>
    obtain ⟨k', v'⟩ := hd
    by_cases h0 : k' = k
    · subst h0
      simp [dictGet] at h
      simp [dictSet, h]
    · simp [dictGet, h0] at h
      simp [dictSet, h0, ih h]

/-! ### Injectivity of the decimal key encoding -/

/-- Python's `int(...)` applied to a string of decimal digit characters
(also decodes the strings produced by `pyStrCore`). -/
def digitsToNat (l : List Char) : Nat :=
  l.foldl (fun a c => a * 10 + (c.toNat - '0'.toNat)) 0

theorem digitChar_decode : ∀ d, d < 10 → (Nat.digitChar d).toNat - 48 = d := by
  decide

theorem digitsToNat_append_one (l : List Char) (c : Char) :
    digitsToNat (l ++ [c]) = 10 * digitsToNat l + (c.toNat - '0'.toNat) := by
  simp [digitsToNat, List.foldl_append, Nat.mul_comm]

theorem pyStrCore_decode : ∀ fuel n, n < fuel → digitsToNat (pyStrCore fuel n) = n := by
  intro fuel
  induction fuel with
  | zero => intro n hn; exact absurd hn (Nat.not_lt_zero n)
  | succ fuel ih =>
    intro n hn
    unfold pyStrCore
    by_cases h : n / 10 = 0
    · have hlt : n < 10 := by omega
      have hd : (Nat.digitChar (n % 10)).toNat - 48 = n % 10 :=
        digitChar_decode (n % 10) (by omega)
      rw [if_pos h]
      have he : digitsToNat [Nat.digitChar (n % 10)]
          = (Nat.digitChar (n % 10)).toNat - '0'.toNat := by
        simp [digitsToNat]
      rw [he]
      have h48 : '0'.toNat = 48 := rfl
      rw [h48]
      omega
    · have hdiv : n / 10 < fuel := by
        have h1 : n / 10 < n := Nat.div_lt_self (by omega) (by norm_num)
        omega
      have hd : (Nat.digitChar (n % 10)).toNat - 48 = n % 10 :=
        digitChar_decode (n % 10) (by omega)
      rw [if_neg h, digitsToNat_append_one, ih (n / 10) hdiv]
      have h48 : '0'.toNat = 48 := rfl
      rw [h48]
      omega

theorem pyStr_injective : ∀ m n : Nat, pyStr m = pyStr n → m = n := by
  intro m n h
  have hl : pyStrCore (m + 1) m = pyStrCore (n + 1) n := by
    have := congrArg String.data h
    simpa [pyStr, List.asString] using this
  have := congrArg digitsToNat hl
  rwa [pyStrCore_decode (m + 1) m (Nat.lt_succ_self m),
    pyStrCore_decode (n + 1) n (Nat.lt_succ_self n)] at this

/-! ### Filename grammar

`_organize_single_file` (src lines 449-507) matches
`r"\d+\.\d+\.\d+\.\d+_(\d{3})_(\d{14})([A-F0-9]{4})\.mp4$"` and
`check_file_exists` (src lines 1087-1124) matches
`r"\d+\.\d+\.\d+\.\d+_(\d+)_(\d{14} as six groups)_(\d{14} as six groups)\.mp4$"`,
both via `re.search` and both after an `filename.endswith(".mp4")` gate.
Because each pattern is anchored at the end of the string and every
variable-width piece (`\d+`) is immediately followed by a literal that is
not a digit (`.` or `_`), the decomposition of a matching string is unique
and `re.search` succeeds exactly when scanning the string right-to-left
from the `.mp4` suffix succeeds; the captured groups are likewise forced.
The scanners below read the reversed character list. -/

def isDigitChar (c : Char) : Bool := c.isDigit

/-- The character class `[A-F0-9]` of the random-suffix group. -/
def isUpperHexChar (c : Char) : Bool := c.isDigit || ('A' ≤ c && c ≤ 'F')

/-- Consume exactly `n` characters satisfying `p`, returning them (in
consumed order) with the remainder. -/
def takeCount (p : Char → Bool) : Nat → List Char → Option (List Char × List Char)
  | 0, l => some ([], l)
  | _ + 1, [] => none
  | n + 1, c :: t =>
    if p c then (takeCount p n t).map (fun pr => (c :: pr.1, pr.2)) else none

/-- Consume a maximal nonempty run of decimal digits (`\d+` whose
continuation is a non-digit literal). -/
def takeDigits1 (l : List Char) : Option (List Char × List Char) :=
  match l with
  | [] => none
  | c :: t =>
    if isDigitChar c then some (c :: t.takeWhile isDigitChar, t.dropWhile isDigitChar)
    else none

def expectChar (c : Char) (l : List Char) : Option (List Char) :=
  match l with
  | [] => none
  | c' :: t => if c' = c then some t else none

/-- `\d+\.\d+\.\d+\.\d+` read right-to-left ending at this position: three
dot-separated digit runs and at least one more digit before the third dot
(anything may precede, per `re.search`). -/
def ipTailRev (l : List Char) : Bool :=
  (takeDigits1 l |>.bind fun pr1 =>
    expectChar '.' pr1.2 |>.bind fun r2 =>
      takeDigits1 r2 |>.bind fun pr3 =>
        expectChar '.' pr3.2 |>.bind fun r4 =>
          takeDigits1 r4 |>.bind fun pr5 =>
            expectChar '.' pr5.2 |>.bind fun r6 =>
              takeDigits1 r6).isSome

/-- Strip the `.mp4` suffix (Python `filename.endswith(".mp4")` gate and
the regexes' literal `\.mp4$` tail), returning the reversed remainder. -/
def splitDotMp4 (s : String) : Option (List Char) :=
  match s.data.reverse with
  | '4' :: 'p' :: 'm' :: '.' :: rest => some rest
  | _ => none

/-- The writer grammar of `_organize_single_file`, reversed side after
`.mp4`: 4 hex chars, 14 digits, `_`, 3 digits, `_`, IP tail.  Returns the
channel and timestamp capture groups in forward order. -/
def organizeParseRev (r : List Char) : Option (List Char × List Char) :=
  takeCount isUpperHexChar 4 r |>.bind fun hx =>
    takeCount isDigitChar 14 hx.2 |>.bind fun ts =>
      expectChar '_' ts.2 |>.bind fun r3 =>
        takeCount isDigitChar 3 r3 |>.bind fun ch =>
          expectChar '_' ch.2 |>.bind fun r5 =>
            if ipTailRev r5 then some (ch.1.reverse, ts.1.reverse) else none

/-- `_organize_single_file`'s parse: `(int(channel group), timestamp group)`;
`none` when the name does not end in `.mp4` or the regex does not match
("Could not parse filename"). -/
def organize_parse (filename : String) : Option (Nat × List Char) :=
  splitDotMp4 filename |>.bind fun rest =>
    organizeParseRev rest |>.bind fun pr =>
      some (digitsToNat pr.1, pr.2)

/-- `timestamp[a:b]` on the 14-digit capture. -/
def tsSlice (ts : List Char) (a b : Nat) : String :=
  ((ts.drop a).take (b - a)).asString

/-- `date_str = f"{start_year}-{start_month}-{start_day}"`. -/
def organizeDateStr (ts : List Char) : String :=
  tsSlice ts 0 4 ++ "-" ++ tsSlice ts 4 6 ++ "-" ++ tsSlice ts 6 8

/-- `start_formatted = f"{start_hour}-{start_minute}-{start_second}"`. -/
def organizeTimeStr (ts : List Char) : String :=
  tsSlice ts 8 10 ++ "-" ++ tsSlice ts 10 12 ++ "-" ++ tsSlice ts 12 14

/-- The destination of `_organize_single_file` relative to the organized
directory: `channel{channel_num}/{date_str}.{start_formatted}.mp4`;
`none` when the file is not organized (unparsable name). -/
def organize_rel_path (filename : String) : Option String :=
  (organize_parse filename).map fun pr =>
    "channel" ++ pyStr pr.1 ++ "/" ++ organizeDateStr pr.2 ++ "." ++
      organizeTimeStr pr.2 ++ ".mp4"

/-- The probe grammar of `check_file_exists`, reversed side after `.mp4`:
14 digits (end timestamp), `_`, 14 digits (start timestamp), `_`, digit
run (channel), `_`, IP tail.  Returns channel, start and end groups in
forward order. -/
def checkParseRev (r : List Char) : Option (List Char × List Char × List Char) :=
  takeCount isDigitChar 14 r |>.bind fun ets =>
    expectChar '_' ets.2 |>.bind fun r2 =>
      takeCount isDigitChar 14 r2 |>.bind fun sts =>
        expectChar '_' sts.2 |>.bind fun r4 =>
          takeDigits1 r4 |>.bind fun chds =>
            expectChar '_' chds.2 |>.bind fun r6 =>
              if ipTailRev r6 then some (chds.1.reverse, sts.1.reverse, ets.1.reverse)
              else none

/-- `check_file_exists`'s parse: `(int(channel group), start, end)`. -/
def check_parse (filename : String) : Option (Nat × List Char × List Char) :=
  splitDotMp4 filename |>.bind fun rest =>
    checkParseRev rest |>.bind fun pr =>
      some (digitsToNat pr.1, pr.2.1, pr.2.2)

/-- The organized path `check_file_exists` probes for, relative to the
organized directory: built from the channel and the start timestamp only. -/
def check_expected_rel_path (filename : String) : Option String :=
  (check_parse filename).map fun pr =>
    "channel" ++ pyStr pr.1 ++ "/" ++ organizeDateStr pr.2.1 ++ "." ++
      organizeTimeStr pr.2.1 ++ ".mp4"

/-- `check_file_exists` (src lines 1087-1124) over a model `fs` of the set
of paths existing under the organized directory. -/
def check_file_exists (fs : List String) (filename : String) : Bool :=
  match check_expected_rel_path filename with
  | none => false
  | some p => fs.contains p

/-- The writer grammar accepts the raw name. -/
def organizeAccepts (filename : String) : Bool := (organize_parse filename).isSome

/-- The probe grammar accepts the raw name. -/
def checkAccepts (filename : String) : Bool := (check_parse filename).isSome

/-! ### Structure of successful parses -/

theorem takeCount_spec (p : Char → Bool) :
    ∀ n l cap rest, takeCount p n l = some (cap, rest) →
      l = cap ++ rest ∧ cap.length = n ∧ ∀ c ∈ cap, p c = true := by
  intro n
  induction n with
  | zero =>
    intro l cap rest h
    simp only [takeCount, Option.some.injEq, Prod.mk.injEq] at h
    obtain ⟨h1, h2⟩ := h
    subst h1
    subst h2
    simp
  | succ n ih =>
    intro l cap rest h
    cases l with
    | nil => simp [takeCount] at h
    | cons c t =>
      simp only [takeCount] at h
      by_cases hp : p c
      · rw [if_pos hp] at h
        cases hm : takeCount p n t with
        | none => rw [hm] at h; simp at h
        | some pr =>
          obtain ⟨cap', rest'⟩ := pr
          rw [hm] at h
          simp only [Option.map_some', Option.some.injEq, Prod.mk.injEq] at h
          obtain ⟨h1, h2⟩ := h
          subst h2
          obtain ⟨ht, hlen, hall⟩ := ih t cap' rest' hm
          subst h1
          refine ⟨by simp [ht], by simp [hlen], ?_⟩
          intro x hx
          rcases List.mem_cons.mp hx with hx | hx
          · subst hx; exact hp
          · exact hall x hx
      · rw [if_neg hp] at h
        simp at h

theorem expectChar_spec (c : Char) (l rest : List Char)
    (h : expectChar c l = some rest) : l = c :: rest := by
  cases l with
  | nil => simp [expectChar] at h
  | cons c' t =>
    simp only [expectChar] at h
    by_cases hc : c' = c
    · rw [if_pos hc] at h
      simp only [Option.some.injEq] at h
      rw [hc, h]
    · rw [if_neg hc] at h
      simp at h

theorem isDigitChar_underscore : isDigitChar '_' = false := by decide

/-- The two grammars are disjoint: any string the probe accepts has an
underscore 15 characters before the trailing `.mp4`, where the writer
grammar demands a digit. -/
theorem organize_check_disjoint (f : String) :
    (organizeAccepts f && checkAccepts f) = false := by
  cases ho : organize_parse f with
  | none => simp [organizeAccepts, ho]
  | some po =>
    cases hc : check_parse f with
    | none => simp [checkAccepts, hc]
    | some pc =>
      exfalso
      simp only [organize_parse, Option.bind_eq_bind, Option.bind_eq_some] at ho
      obtain ⟨r, hsplit, pr, hrev, _⟩ := ho
      simp only [check_parse, Option.bind_eq_bind, Option.bind_eq_some] at hc
      obtain ⟨r', hsplit', pr', hrev', _⟩ := hc
      have hr : r' = r := by
        rw [hsplit] at hsplit'
        exact (Option.some.injEq _ _ ▸ hsplit').symm
      rw [hr] at hrev'
      -- writer side: r = hx ++ ts ++ r2 with |hx| = 4, |ts| = 14, ts digits
      simp only [organizeParseRev, Option.bind_eq_bind, Option.bind_eq_some] at hrev
      obtain ⟨hx, hhx, ts, hts, _⟩ := hrev
      obtain ⟨hr1, hhxlen, _⟩ := takeCount_spec isUpperHexChar 4 r hx.1 hx.2 hhx
      obtain ⟨hr2, htslen, htsdig⟩ := takeCount_spec isDigitChar 14 hx.2 ts.1 ts.2 hts
      -- probe side: r = ets ++ '_' :: q2 with |ets| = 14
      simp only [checkParseRev, Option.bind_eq_bind, Option.bind_eq_some] at hrev'
      obtain ⟨ets, hets, q2, hq2, _⟩ := hrev'
      obtain ⟨hr1', hetslen, _⟩ := takeCount_spec isDigitChar 14 r ets.1 ets.2 hets
      have hq : ets.2 = '_' :: q2 := expectChar_spec '_' ets.2 q2 hq2
      -- index 14 of r is '_' by the probe decomposition
      have h14u : r[14]? = some '_' := by
        rw [hr1', hq, List.getElem?_append_right (by rw [hetslen])]
        simp [hetslen]
      -- index 14 of r is a digit by the writer decomposition
      have h14d : r[14]? = ts.1[10]? := by
        rw [hr1, hr2, List.getElem?_append_right (by rw [hhxlen]; norm_num),
          List.getElem?_append]
        rw [hhxlen]
        simp [htslen]
      have h10lt : 10 < ts.1.length := by rw [htslen]; norm_num
      have hget : ts.1[10]? = some ts.1[10] := List.getElem?_eq_getElem h10lt
      have hdig : isDigitChar ts.1[10] = true :=
        htsdig _ (List.getElem_mem h10lt)
      rw [h14d, hget] at h14u
      have : ts.1[10] = '_' := by
        simpa using h14u
      rw [this, isDigitChar_underscore] at hdig
      exact Bool.false_ne_true hdig

/-! ### Ledger lemmas -/

theorem contains_append_self (l : List String) (f : String) :
    (l ++ [f]).contains f = true := by
  simp

theorem markFiles1_contains (db : Ledger) (c p : Nat) (f : String) :
    (markFiles1 db c p f).contains f = true := by
  unfold markFiles1
  cases h : (markFiles db c p).contains f
  · simp only [h, Bool.false_eq_true, if_false]
    exact contains_append_self _ _
  · simp only [h, if_true]

theorem dictGet_mark_self (db : Ledger) (c p : Nat) (f : String) :
    dictGet (mark_file_downloaded db c p f) (pyStr c)
      = some ⟨some (dictSet (markPgs1 db c p) (pyStr p) (markFiles1 db c p f))⟩ := by
  unfold mark_file_downloaded
  exact dictGet_set_self _ _ _

/-- The page list `mark_file_downloaded` starts from is what
`get_page_stats` reports for the same keys. -/
theorem markFiles_eq_stats (db : Ledger) (c p : Nat) :
    markFiles db c p = (get_page_stats db c p).2 := by
  unfold markFiles markPgs1 markPgs markCd markDb1 get_page_stats
  cases h1 : dictGet db (pyStr c) with
  | none => simp [dictGet, dictGet_set_self]
  | some cd0 =>
    cases h2 : cd0.pages with
    | none => simp [h1, h2, dictGet, dictGet_set_self]
    | some pgs0 =>
      cases h3 : dictGet pgs0 (pyStr p) with
      | none => simp [h1, h2, h3, dictGet_set_self]
      | some fl => simp [h1, h2, h3]

theorem is_file_eq_stats_contains (db : Ledger) (c p : Nat) (f : String) :
    is_file_downloaded db c p f = ((get_page_stats db c p).2).contains f := by
  unfold is_file_downloaded get_page_stats
  cases h1 : dictGet db (pyStr c) with
  | none => simp
  | some cd0 =>
    cases h2 : cd0.pages with
    | none => simp [h2]
    | some pgs0 =>
      cases h3 : dictGet pgs0 (pyStr p) with
      | none => simp [h2, h3]
      | some fl => simp [h2, h3]

/-- The committed page list after `mark_file_downloaded`. -/
theorem stats_mark_self (db : Ledger) (c p : Nat) (f : String) :
    (get_page_stats (mark_file_downloaded db c p f) c p).2 = markFiles1 db c p f := by
  unfold get_page_stats
  rw [dictGet_mark_self]
  simp [dictGet_set_self]

/-- Committing makes `is_file_downloaded` report `True`. -/
theorem is_file_downloaded_mark_self (db : Ledger) (c p : Nat) (f : String) :
    is_file_downloaded (mark_file_downloaded db c p f) c p f = true := by
  rw [is_file_eq_stats_contains, stats_mark_self]
  exact markFiles1_contains db c p f

/-- When the filename is already present, step 6 keeps the list as it is. -/
theorem markFiles1_of_contains (db : Ledger) (c p : Nat) (f : String)
    (h : (markFiles db c p).contains f = true) :
    markFiles1 db c p f = markFiles db c p := by
  unfold markFiles1
  rw [h]
  simp

/-- Committing the same `(channel, page, filename)` a second time is a
no-op on the in-memory ledger. -/
theorem mark_mark_eq (db : Ledger) (c p : Nat) (f : String) :
    mark_file_downloaded (mark_file_downloaded db c p f) c p f
      = mark_file_downloaded db c p f := by
  have h1 := dictGet_mark_self db c p f
  have h2 : dictGet (dictSet (markPgs1 db c p) (pyStr p) (markFiles1 db c p f)) (pyStr p)
      = some (markFiles1 db c p f) := dictGet_set_self _ _ _
  have hdb1 : markDb1 (mark_file_downloaded db c p f) c = mark_file_downloaded db c p f := by
    unfold markDb1
    rw [h1]
  have hcd : markCd (mark_file_downloaded db c p f) c
      = ⟨some (dictSet (markPgs1 db c p) (pyStr p) (markFiles1 db c p f))⟩ := by
    unfold markCd
    rw [hdb1, h1]
    rfl
  have hpgs : markPgs (mark_file_downloaded db c p f) c
      = dictSet (markPgs1 db c p) (pyStr p) (markFiles1 db c p f) := by
    unfold markPgs
    rw [hcd]
    rfl
  have hpgs1 : markPgs1 (mark_file_downloaded db c p f) c p
      = dictSet (markPgs1 db c p) (pyStr p) (markFiles1 db c p f) := by
    unfold markPgs1
    rw [hpgs, h2]
    rfl
  have hfiles : markFiles (mark_file_downloaded db c p f) c p = markFiles1 db c p f := by
    unfold markFiles
    rw [hpgs1, h2]
    rfl
  have hcont : (markFiles (mark_file_downloaded db c p f) c p).contains f = true := by
    rw [hfiles]
    exact markFiles1_contains db c p f
  have hfiles1 : markFiles1 (mark_file_downloaded db c p f) c p f = markFiles1 db c p f := by
    rw [markFiles1_of_contains _ _ _ _ hcont, hfiles]
  conv_lhs => rw [mark_file_downloaded]
  rw [hdb1, hpgs1, hfiles1]
  rw [dictSet_eq_of_get _ _ _ h2]
  exact dictSet_eq_of_get _ _ _ h1

/-- A commit leaves every other channel's statistics unchanged. -/
theorem stats_mark_other_channel (db : Ledger) (c c' p p' : Nat) (f : String)
    (h : c' ≠ c) :
    get_page_stats (mark_file_downloaded db c p f) c' p' = get_page_stats db c' p' := by
  have hk : pyStr c' ≠ pyStr c := fun he => h (pyStr_injective c' c he)
  unfold get_page_stats mark_file_downloaded
  rw [dictGet_set_ne _ _ _ _ hk]
  unfold markDb1
  cases h1 : dictGet db (pyStr c) with
  | none => rw [dictGet_set_ne _ _ _ _ hk]
  | some cd0 => rfl

/-- A commit leaves every other page of the same channel unchanged. -/
theorem stats_mark_other_page (db : Ledger) (c p p' : Nat) (f : String)
    (h : p' ≠ p) :
    get_page_stats (mark_file_downloaded db c p f) c p' = get_page_stats db c p' := by
  have hk : pyStr p' ≠ pyStr p := fun he => h (pyStr_injective p' p he)
  have hmain : dictGet (markPgs1 db c p) (pyStr p') = dictGet (markPgs db c) (pyStr p') := by
    unfold markPgs1
    cases h1 : dictGet (markPgs db c) (pyStr p) with
    | none => exact dictGet_set_ne _ _ _ _ hk
    | some _ => rfl
  unfold get_page_stats
  rw [dictGet_mark_self]
  show (match dictGet (dictSet (markPgs1 db c p) (pyStr p) (markFiles1 db c p f)) (pyStr p') with
        | none => ((0 : Nat), ([] : List String))
        | some files => (files.length, files)) = _
  rw [dictGet_set_ne _ _ _ _ hk, hmain]
  unfold markPgs markCd markDb1
  cases h1 : dictGet db (pyStr c) with
  | none => simp [dictGet_set_self, dictGet]
  | some cd0 =>
    cases h2 : cd0.pages with
    | none => simp [h1, h2, dictGet]
    | some pgs0 => simp [h1, h2]

/-- Appending one filename does not change membership of any other. -/
theorem contains_markFiles1_ne (db : Ledger) (c p : Nat) (f f' : String)
    (h : f' ≠ f) :
    (markFiles1 db c p f).contains f' = (markFiles db c p).contains f' := by
  unfold markFiles1
  cases hc : (markFiles db c p).contains f
  · simp only [hc, Bool.false_eq_true, if_false]
    simp [h]
  · simp [hc]

/-! ### The download handler

`DeviceScraper._handle_download` (src lines 369-447).  The handler's
in-memory effects are on the ledger, `completed_downloads`,
`current_download_batch` and the organized directory; `pending_downloads`
receives the download object at entry and drops it again on every modelled
path, so its length is unchanged and it is not part of the state.  The
outcome of `download.save_as` plus the following `stat` is an input
(`SaveOutcome`), as is the current listing of the organized directory
(`fs`, paths relative to `organized_dir`). -/

/-- What the environment did with `download.save_as(save_path)`:
the file was missing afterwards, or it exists with a byte size. -/
inductive SaveOutcome where
  | missing : SaveOutcome
  | sized : Nat → SaveOutcome
  deriving DecidableEq

/-- Which exit the handler took (also records whether the in-flight
transfer was cancelled: the two skip paths call `download.cancel()`). -/
inductive HandleResult where
  | skippedInDB : HandleResult
  | skippedExists : HandleResult
  | saved : HandleResult
  | zeroByte : HandleResult
  | missingAfterSave : HandleResult
  deriving DecidableEq

/-- The scraper's mutable state as touched by `_handle_download`. -/
structure ScraperState where
  db : Ledger
  completed : List String
  batch : List String
  currentChannel : Option Nat
  currentPage : Option Nat
  fs : List String
  deriving DecidableEq

/-- `self.is_file_downloaded(self.current_channel, self.current_page, f)`
guarded by `current_channel is not None and current_page is not None`. -/
def contextCommitted (st : ScraperState) (filename : String) : Bool :=
  match st.currentChannel, st.currentPage with
  | some c, some p => is_file_downloaded st.db c p filename
  | _, _ => false

/-- `self.mark_file_downloaded(...)` guarded the same way. -/
def contextMark (st : ScraperState) (filename : String) : Ledger :=
  match st.currentChannel, st.currentPage with
  | some c, some p => mark_file_downloaded st.db c p filename
  | _, _ => st.db

/-- `_organize_single_file` (src lines 449-507) as a move into the
organized directory: when the writer grammar parses the name the file is
moved to its canonical path (which therefore starts to exist), otherwise
nothing happens.  (The source file sits in the flat download directory,
which is not part of `fs`.) -/
def organizeSingleFile (fs : List String) (filename : String) : List String :=
  match organize_rel_path filename with
  | some pth => fs ++ [pth]
  | none => fs

/-- `DeviceScraper._handle_download` (src lines 369-447): dedup against the
ledger, then against the organized directory, then save; a zero-byte file
is deleted and nothing is recorded; a vanished file records nothing.  Only
the successful-save path appends to `current_download_batch`. -/
def handle_download (st : ScraperState) (filename : String) (save : SaveOutcome) :
    ScraperState × HandleResult :=
  if contextCommitted st filename then
    (st, HandleResult.skippedInDB)
  else if check_file_exists st.fs filename then
    ({ st with
        db := contextMark st filename
        completed := st.completed ++ [filename] }, HandleResult.skippedExists)
  else
    match save with
    | SaveOutcome.missing => (st, HandleResult.missingAfterSave)
    | SaveOutcome.sized 0 => (st, HandleResult.zeroByte)
    | SaveOutcome.sized (_ + 1) =>
      ({ st with
          db := contextMark st filename
          completed := st.completed ++ [filename]
          batch := st.batch ++ [filename]
          fs := organizeSingleFile st.fs filename }, HandleResult.saved)

/-! ### Handler lemmas -/

/-- One landed event adds at most one occurrence of its filename to the
current batch. -/
theorem handle_batch_le (st : ScraperState) (f : String) (save : SaveOutcome) :
    List.count f (handle_download st f save).1.batch ≤ List.count f st.batch + 1 := by
  unfold handle_download
  cases hcc : contextCommitted st f
  · cases hce : check_file_exists st.fs f
    · cases save with
      | missing => simp
      | sized n =>
        cases n with
        | zero => simp
        | succ m => simp [List.count_append]
    · simp
  · simp

/-- A successful save or an exists-skip with the page context set leaves
the ledger committed for the current context. -/
theorem handle_commits (st : ScraperState) (f : String) (save : SaveOutcome)
    (c p : Nat) (hc : st.currentChannel = some c) (hp : st.currentPage = some p) :
    (handle_download st f save).1.currentChannel = some c ∧
    (handle_download st f save).1.currentPage = some p := by
  unfold handle_download
  cases hcc : contextCommitted st f
  · cases hce : check_file_exists st.fs f
    · cases save with
      | missing => exact ⟨hc, hp⟩
      | sized n =>
        cases n with
        | zero => exact ⟨hc, hp⟩
        | succ m => exact ⟨hc, hp⟩
    · exact ⟨hc, hp⟩
  · exact ⟨hc, hp⟩

/-! ### C1 -/

/-- C1: for every scraper state whose page context is `(c, p)` and whose
ledger already records `filename` there, a landed event for the same
filename is rejected: the handler cancels it, leaving the ledger, the
session-completed list and the current batch's landed list untouched; and
consequently two landed events for the same filename under a set context
can raise the batch count of that filename by at most one. -/
theorem C1_dedup_rejects_committed (st : ScraperState) (filename : String)
    (save save1 save2 : SaveOutcome) (c p : Nat)
    (hc : st.currentChannel = some c) (hp : st.currentPage = some p) :
    (is_file_downloaded st.db c p filename = true →
      handle_download st filename save = (st, HandleResult.skippedInDB)) ∧
    List.count filename
        (handle_download (handle_download st filename save1).1 filename save2).1.batch
      ≤ List.count filename st.batch + 1 := by
  constructor
  · intro hdb
    have hcc : contextCommitted st filename = true := by
      unfold contextCommitted
      rw [hc, hp]
      exact hdb
    unfold handle_download
    rw [hcc]
    simp
  · cases hcc : contextCommitted st filename
    · cases hce : check_file_exists st.fs filename
      · cases save1 with
        | missing =>
          have h1 : (handle_download st filename SaveOutcome.missing).1 = st := by
            unfold handle_download
            rw [hcc, hce]
            simp
          rw [h1]
          exact handle_batch_le st filename save2
        | sized n =>
          cases n with
          | zero =>
            have h1 : (handle_download st filename (SaveOutcome.sized 0)).1 = st := by
              unfold handle_download
              rw [hcc, hce]
              simp
            rw [h1]
            exact handle_batch_le st filename save2
          | succ m =>
            have h1 : (handle_download st filename (SaveOutcome.sized (m + 1))).1
                = { st with
                    db := contextMark st filename
                    completed := st.completed ++ [filename]
                    batch := st.batch ++ [filename]
                    fs := organizeSingleFile st.fs filename } := by
              unfold handle_download
              rw [hcc, hce]
              simp
            rw [h1]
            have hcc2 : contextCommitted
                { st with
                    db := contextMark st filename
                    completed := st.completed ++ [filename]
                    batch := st.batch ++ [filename]
                    fs := organizeSingleFile st.fs filename } filename = true := by
              unfold contextCommitted
              show (match st.currentChannel, st.currentPage with
                | some c, some p => is_file_downloaded (contextMark st filename) c p filename
                | _, _ => false) = true
              rw [hc, hp]
              unfold contextMark
              rw [hc, hp]
              exact is_file_downloaded_mark_self st.db c p filename
            have h2 : (handle_download
                { st with
                    db := contextMark st filename
                    completed := st.completed ++ [filename]
                    batch := st.batch ++ [filename]
                    fs := organizeSingleFile st.fs filename } filename save2).1
                = { st with
                    db := contextMark st filename
                    completed := st.completed ++ [filename]
                    batch := st.batch ++ [filename]
                    fs := organizeSingleFile st.fs filename } := by
              unfold handle_download
              rw [hcc2]
              simp
            rw [h2]
            simp [List.count_append]
      · -- file exists physically: batch untouched, ledger committed
        have h1 : (handle_download st filename save1).1
            = { st with
                db := contextMark st filename
                completed := st.completed ++ [filename] } := by
          unfold handle_download
          rw [hcc, hce]
          simp
        rw [h1]
        have hcc2 : contextCommitted
            { st with
                db := contextMark st filename
                completed := st.completed ++ [filename] } filename = true := by
          unfold contextCommitted
          show (match st.currentChannel, st.currentPage with
            | some c, some p => is_file_downloaded (contextMark st filename) c p filename
            | _, _ => false) = true
          rw [hc, hp]
          unfold contextMark
          rw [hc, hp]
          exact is_file_downloaded_mark_self st.db c p filename
        have h2 : (handle_download
            { st with
                db := contextMark st filename
                completed := st.completed ++ [filename] } filename save2).1
            = { st with
                db := contextMark st filename
                completed := st.completed ++ [filename] } := by
          unfold handle_download
          rw [hcc2]
          simp
        rw [h2]
        simp
    · have h1 : (handle_download st filename save1).1 = st := by
        unfold handle_download
        rw [hcc]
        simp
      rw [h1]
      exact handle_batch_le st filename save2

/-- The spec's preloaded-ledger scenario state: ledger
`{"channels": {"3": {"pages": {"1": ["a.mp4"]}}}}`, context channel 3
page 1. -/
def st0C1 : ScraperState :=
  { db := [("3", ⟨some [("1", ["a.mp4"])]⟩)]
    completed := []
    batch := []
    currentChannel := some 3
    currentPage := some 1
    fs := [] }

theorem C1_dedup_rejects_committed_witness :
    handle_download st0C1 "a.mp4" SaveOutcome.missing = (st0C1, HandleResult.skippedInDB) ∧
    List.count "a.mp4"
        (handle_download (handle_download st0C1 "a.mp4" SaveOutcome.missing).1 "a.mp4"
          SaveOutcome.missing).1.batch
      ≤ List.count "a.mp4" st0C1.batch + 1 :=
  ⟨(C1_dedup_rejects_committed st0C1 "a.mp4" SaveOutcome.missing SaveOutcome.missing
      SaveOutcome.missing 3 1 rfl rfl).1 (by decide),
    (C1_dedup_rejects_committed st0C1 "a.mp4" SaveOutcome.missing SaveOutcome.missing
      SaveOutcome.missing 3 1 rfl rfl).2⟩

/-! ### C2 -/

/-- C2: committing the same `(channel, page, filename)` twice leaves the
in-memory ledger exactly as after the first commit, and — whenever the
page's stored list is set-like (at most one occurrence, as every list the
program itself builds is) — the filename occurs exactly once afterwards. -/
theorem C2_commit_idempotent (db : Ledger) (c p : Nat) (f : String) :
    mark_file_downloaded (mark_file_downloaded db c p f) c p f
        = mark_file_downloaded db c p f ∧
    (List.count f (get_page_stats db c p).2 ≤ 1 →
      List.count f
          (get_page_stats
            (mark_file_downloaded (mark_file_downloaded db c p f) c p f) c p).2
        = 1) := by
  refine ⟨mark_mark_eq db c p f, ?_⟩
  intro h
  rw [mark_mark_eq, stats_mark_self]
  unfold markFiles1
  rw [markFiles_eq_stats]
  cases hcon : ((get_page_stats db c p).2).contains f
  · simp only [hcon, Bool.false_eq_true, if_false]
    have hne : f ∉ (get_page_stats db c p).2 := by simpa using hcon
    rw [List.count_append, List.count_eq_zero.mpr hne]
    simp
  · simp only [hcon, if_true]
    have hmem : f ∈ (get_page_stats db c p).2 := by simpa using hcon
    have := List.count_pos_iff.mpr hmem
    omega

theorem C2_commit_idempotent_witness :
    mark_file_downloaded (mark_file_downloaded [] 3 1 "a.mp4") 3 1 "a.mp4"
        = mark_file_downloaded [] 3 1 "a.mp4" ∧
    List.count "a.mp4"
        (get_page_stats
          (mark_file_downloaded (mark_file_downloaded [] 3 1 "a.mp4") 3 1 "a.mp4") 3 1).2
      = 1 :=
  ⟨(C2_commit_idempotent [] 3 1 "a.mp4").1,
    (C2_commit_idempotent [] 3 1 "a.mp4").2 (by decide)⟩

/-! ### C10 -/

/-- C10: after `mark_file_downloaded db c p f`, the query
`is_file_downloaded` reports `True` at `(c, p, f)` and is unchanged at
every other key `(c', p', f')`. -/
theorem C10_commit_frame (db : Ledger) (c p : Nat) (f : String)
    (c' p' : Nat) (f' : String) (h : ¬(c' = c ∧ p' = p ∧ f' = f)) :
    is_file_downloaded (mark_file_downloaded db c p f) c p f = true ∧
    is_file_downloaded (mark_file_downloaded db c p f) c' p' f'
      = is_file_downloaded db c' p' f' := by
  refine ⟨is_file_downloaded_mark_self db c p f, ?_⟩
  by_cases hcc : c' = c
  · by_cases hpp : p' = p
    · by_cases hff : f' = f
      · exact absurd ⟨hcc, hpp, hff⟩ h
      · rw [hcc, hpp]
        rw [is_file_eq_stats_contains, is_file_eq_stats_contains, stats_mark_self]
        rw [contains_markFiles1_ne db c p f f' hff, markFiles_eq_stats]
    · rw [hcc]
      rw [is_file_eq_stats_contains, is_file_eq_stats_contains,
        stats_mark_other_page db c p p' f hpp]
  · rw [is_file_eq_stats_contains, is_file_eq_stats_contains,
      stats_mark_other_channel db c c' p p' f hcc]

theorem C10_commit_frame_witness :
    is_file_downloaded (mark_file_downloaded [] 3 1 "a.mp4") 3 1 "a.mp4" = true ∧
    is_file_downloaded (mark_file_downloaded [] 3 1 "a.mp4") 3 2 "a.mp4"
      = is_file_downloaded [] 3 2 "a.mp4" :=
  C10_commit_frame [] 3 1 "a.mp4" 3 2 "a.mp4" (by decide)

/-! ### C3 -/

/-- C3 counterexample: on the spec's worked example the writer grammar of
`_organize_single_file` fails to parse (it requires a 3-digit channel and
a single 14-digit timestamp followed by 4 hex characters), so the file is
not organized at all; and the probe grammar, which does parse the name
with channel 3 and start `2025-01-29 14:30:00`, derives the path
`channel3/2025-01-29.14-30-00.mp4` — not the claimed
`channel3/2025-01-29.14-30-00_14-45-00.mp4` (no end time ever appears in
the organized name). -/
theorem C3_organize_example_counterexample :
    organize_parse "10.0.0.5_3_20250129143000_20250129144500.mp4" = none ∧
    organize_rel_path "10.0.0.5_3_20250129143000_20250129144500.mp4" = none ∧
    check_expected_rel_path "10.0.0.5_3_20250129143000_20250129144500.mp4"
      ≠ some "channel3/2025-01-29.14-30-00_14-45-00.mp4" := by
  refine ⟨by decide, by decide, by decide⟩

/-- C3 (amended): `_organize_single_file` rejects the raw name
`10.0.0.5_3_20250129143000_20250129144500.mp4` and organizes nothing;
`check_file_exists`'s grammar parses it with channel 3 and start
timestamp 2025-01-29 14:30:00 and derives the organized path
`channel3/2025-01-29.14-30-00.mp4`, which carries no end time. -/
theorem C3_organize_example :
    organize_rel_path "10.0.0.5_3_20250129143000_20250129144500.mp4" = none ∧
    check_parse "10.0.0.5_3_20250129143000_20250129144500.mp4"
      = some (3, "20250129143000".data, "20250129144500".data) ∧
    check_expected_rel_path "10.0.0.5_3_20250129143000_20250129144500.mp4"
      = some "channel3/2025-01-29.14-30-00.mp4" := by
  refine ⟨by decide, by decide, by decide⟩

/-! ### C4 -/

/-- C4 counterexample: there is no raw filename that both the writer
(`_organize_single_file`) and the probe (`check_file_exists`) accept — the
two accepted sets are disjoint, refuting the claim that the probe can fire
for files the writer organizes; concretely, the spec's own example is
accepted by the probe and rejected by the writer. -/
theorem C4_agreement_counterexample :
    checkAccepts "10.0.0.5_3_20250129143000_20250129144500.mp4" = true ∧
    organizeAccepts "10.0.0.5_3_20250129143000_20250129144500.mp4" = false ∧
    ¬ ∃ g : String, organizeAccepts g = true ∧ checkAccepts g = true := by
  refine ⟨by decide, by decide, ?_⟩
  rintro ⟨g, h1, h2⟩
  have := organize_check_disjoint g
  rw [h1, h2] at this
  simp at this

/-- C4 (amended): the organize path computation is a pure function of the
raw name, but the writer and probe grammars accept disjoint sets of
filenames, so they never both accept a name (their agreement is vacuous)
and the physical-existence probe cannot fire for a file the writer itself
organized. -/
theorem C4_writer_probe_disjoint (f : String) :
    (organizeAccepts f && checkAccepts f) = false :=
  organize_check_disjoint f

/-! ### C5 -/

/-- C5 (amended): a landed item whose organized path already exists and
which is not yet in the ledger is cancelled, committed to the ledger for
the current `(channel, page)` context, and appended to the
session-completed list — but it is NOT appended to
`current_download_batch`, the list whose length the reconciliation wait
compares against the expected success count. -/
theorem C5_skip_existing (st : ScraperState) (f : String) (save : SaveOutcome)
    (c p : Nat) (hc : st.currentChannel = some c) (hp : st.currentPage = some p)
    (hdb : is_file_downloaded st.db c p f = false)
    (hex : check_file_exists st.fs f = true) :
    handle_download st f save
      = ({ st with
            db := mark_file_downloaded st.db c p f
            completed := st.completed ++ [f] }, HandleResult.skippedExists) := by
  have hcc : contextCommitted st f = false := by
    unfold contextCommitted
    rw [hc, hp]
    exact hdb
  have hcm : contextMark st f = mark_file_downloaded st.db c p f := by
    unfold contextMark
    rw [hc, hp]
  unfold handle_download
  rw [hcc, hex, hcm]
  simp

/-- The C5 scenario: empty ledger, context channel 1 page 1, and the
organized path of the landed name already present on disk. -/
def st0C5 : ScraperState :=
  { db := []
    completed := []
    batch := []
    currentChannel := some 1
    currentPage := some 1
    fs := ["channel1/2025-01-29.00-42-31.mp4"] }

theorem C5_skip_existing_witness :
    handle_download st0C5 "10.0.0.1_1_20250129004231_20250129004252.mp4"
        (SaveOutcome.sized 5)
      = ({ st0C5 with
            db := mark_file_downloaded st0C5.db 1 1
              "10.0.0.1_1_20250129004231_20250129004252.mp4"
            completed := st0C5.completed ++
              ["10.0.0.1_1_20250129004231_20250129004252.mp4"] },
          HandleResult.skippedExists) :=
  C5_skip_existing st0C5 "10.0.0.1_1_20250129004231_20250129004252.mp4"
    (SaveOutcome.sized 5) 1 1 rfl rfl (by decide) (by decide)

/-- C5 counterexample: on the scenario state the handler cancels the
transfer (exists-skip), commits the name to the ledger, but leaves the
current batch empty — the count the reconciliation wait compares against
`expectedSuccess` does not include the skipped item, refuting the claim
that it is counted as landed for batch-completion arithmetic. -/
theorem C5_batch_not_counted_counterexample :
    check_file_exists st0C5.fs "10.0.0.1_1_20250129004231_20250129004252.mp4" = true ∧
    (handle_download st0C5 "10.0.0.1_1_20250129004231_20250129004252.mp4"
        (SaveOutcome.sized 5)).2 = HandleResult.skippedExists ∧
    is_file_downloaded
        (handle_download st0C5 "10.0.0.1_1_20250129004231_20250129004252.mp4"
          (SaveOutcome.sized 5)).1.db 1 1
        "10.0.0.1_1_20250129004231_20250129004252.mp4" = true ∧
    (handle_download st0C5 "10.0.0.1_1_20250129004231_20250129004252.mp4"
        (SaveOutcome.sized 5)).1.batch = [] := by
  refine ⟨by decide, by decide, by decide, by decide⟩

/-! ### Status-text parsers of the reconciliation loop

`re.search(r"Success (\d+)", text)` / `r"Failure (\d+)"` (src lines
894-895, 976-981) and `re.search(r"\((\d+)/(\d+)\)", text)` (src line
949).  `re.search` scans start positions left to right; `\d+` is a
maximal digit run because the character after it must be a non-digit
literal, so the scanners below are exact. -/

/-- Match the literal `key` at the head of `l`, returning the remainder. -/
def matchKeyAt : List Char → List Char → Option (List Char)
  | [], l => some l
  | _ :: _, [] => none
  | k :: ks, c :: cs => if c = k then matchKeyAt ks cs else none

/-- Leftmost occurrence of `key` followed by at least one digit; the value
of the maximal digit run after it. -/
def searchKeyNum (key : List Char) : List Char → Option Nat
  | [] => none
  | c :: cs =>
    match matchKeyAt key (c :: cs) with
    | some rest =>
      if rest.takeWhile isDigitChar = [] then searchKeyNum key cs
      else some (digitsToNat (rest.takeWhile isDigitChar))
    | none => searchKeyNum key cs

def success_count (text : String) : Option Nat :=
  searchKeyNum "Success ".data text.data

def failure_count (text : String) : Option Nat :=
  searchKeyNum "Failure ".data text.data

/-- Match `\((\d+)/(\d+)\)` at the head of `l`. -/
def matchParen (l : List Char) : Option (Nat × Nat) :=
  match l with
  | '(' :: rest =>
    if rest.takeWhile isDigitChar = [] then none
    else
      match rest.dropWhile isDigitChar with
      | '/' :: r2 =>
        if r2.takeWhile isDigitChar = [] then none
        else
          match r2.dropWhile isDigitChar with
          | ')' :: _ => some (digitsToNat (rest.takeWhile isDigitChar),
              digitsToNat (r2.takeWhile isDigitChar))
          | _ => none
      | _ => none
  | _ => none

def searchProgress : List Char → Option (Nat × Nat)
  | [] => none
  | c :: cs =>
    match matchParen (c :: cs) with
    | some pr => some pr
    | none => searchProgress cs

/-- The `"(current/total)"` parse of the progress text. -/
def parse_progress (text : String) : Option (Nat × Nat) :=
  searchProgress text.data

/-- Python truthiness of the polled `infoText` / `alertText` (`None` and
the empty string are falsy). -/
def textTruthy : Option String → Bool
  | none => false
  | some t => !(t == "")

/-! ### The reconciliation loop

`DeviceScraper.wait_for_download_completion` (src lines 847-1057),
embedded as a fuel-bounded recursion over environment streams.  One tick
is one iteration of the outer `while` loop; `clock i` is the value of
`asyncio.get_event_loop().time() - start_time` (in ms) during tick `i`
(the loop reads the clock against the timeout and for the stall rule; the
embedding samples it once per tick).  The nested settle waits (after an
alert, lines 910-929 and 993-1012) and the nested alert poll (lines
961-989) consume their own streams; each runs at most once per call since
its branch returns.  `alertResultText` models the showbox text read after
the nested alert poll fires (the element exists whenever the alert is
shown).  Exceptions (the `except` handler, src lines 1053-1057) are not
modelled: no modelled operation raises. -/

/-- One `page.evaluate` status snapshot (src lines 874-888); the fetched
`progressWidth` is never read afterwards and is omitted. -/
structure PollStatus where
  infoText : Option String
  stopBtnExists : Bool
  alertVisible : Bool
  alertText : Option String
  deriving DecidableEq

structure WaitEnv where
  sessionOk : Nat → Bool
  status : Nat → PollStatus
  clock : Nat → Nat
  alertShowing : Nat → Bool
  alertResultText : Nat → String
  batchLen : Nat → Nat
  pendingLen : Nat → Nat

structure WaitResult where
  success : Nat
  failure : Nat
  completed : Bool
  deriving DecidableEq

/-- Which `return` of `wait_for_download_completion` was taken, and
whether that path called `save_downloaded_files_db` first. -/
inductive ExitPath where
  | sessionLoss : ExitPath
  | alertEarly : ExitPath
  | alertSub : ExitPath
  | queuedEarly : ExitPath
  | queuedSub : ExitPath
  | stall : ExitPath
  | stopGone : ExitPath
  | timedOut : ExitPath
  deriving DecidableEq

structure WaitOutcome where
  res : WaitResult
  saved : Bool
  path : ExitPath
  deriving DecidableEq

/-- The settle condition `current_batch_downloads >= expected and
len(pending_downloads) == 0` holds at some iteration `j < n`. -/
def settleHit (env : WaitEnv) (expected n : Nat) : Bool :=
  (List.range n).any fun j =>
    decide (expected ≤ env.batchLen j) && decide (env.pendingLen j = 0)

/-- The alert branch (src lines 897-936): tallies recorded, then up to 60
one-second waits for the files to settle; both endings save and return the
same tallies with `completed = True`. -/
def alertBranch (env : WaitEnv) (s f : Nat) : WaitOutcome :=
  if settleHit env s 60 then ⟨⟨s, f, true⟩, true, ExitPath.alertEarly⟩
  else ⟨⟨s, f, true⟩, true, ExitPath.alertSub⟩

/-- The nested alert poll of the queued branch (src lines 961-989): the
first of 60 iterations where the alert shows determines the tallies;
no alert, or an unparsable text, leaves `{0, 0, False}`. -/
def queuedAlertResult (env : WaitEnv) : WaitResult :=
  match (List.range 60).find? (fun j => env.alertShowing j) with
  | none => ⟨0, 0, false⟩
  | some j =>
    match success_count (env.alertResultText j),
        failure_count (env.alertResultText j) with
    | some s, some f => ⟨s, f, true⟩
    | _, _ => ⟨0, 0, false⟩

/-- The all-queued branch (src lines 954-1019): wait for the alert, then
up to 120 one-second waits for the files to settle; both endings save. -/
def queuedBranch (env : WaitEnv) (total : Nat) : WaitOutcome :=
  if settleHit env total 120 then ⟨queuedAlertResult env, true, ExitPath.queuedEarly⟩
  else ⟨queuedAlertResult env, true, ExitPath.queuedSub⟩

/-- The visible alert's `Success s Failure f` parse (src lines 891-897). -/
def alertNums (st : PollStatus) : Option (Nat × Nat) :=
  if st.alertVisible && textTruthy st.alertText then
    match success_count (st.alertText.getD ""), failure_count (st.alertText.getD "") with
    | some s, some f => some (s, f)
    | _, _ => none
  else none

/-- `no_change_count` after observing progress text `t` (src lines
940-946). -/
def nextNoChange (t lastProgress : String) (noChange : Nat) : Nat :=
  if t ≠ lastProgress then 0 else noChange + 1

/-- `last_progress_time` after observing progress text `t`. -/
def nextLastPT (t lastProgress : String) (clockNow lastPT : Nat) : Nat :=
  if t ≠ lastProgress then clockNow else lastPT

/-- The stall condition (src lines 1025-1029): `no_change_count > 30 and
time_since_change > 60 and not status["stopBtnExists"]`. -/
def stallFires (noChange elapsed : Nat) (stopBtn : Bool) : Bool :=
  decide (30 < noChange) && decide (60000 < elapsed) && (stopBtn == false)

/-- One step state of the outer loop: `(last_progress, no_change_count,
last_progress_time)`.  `fuel` bounds the number of ticks; `none` means the
fuel ran out before any `return` (a modelling artifact only). -/
def waitLoop (env : WaitEnv) (timeoutMs : Nat) :
    Nat → Nat → String → Nat → Nat → Option WaitOutcome
  | 0, _, _, _, _ => none
  | fuel + 1, i, lastProgress, noChange, lastPT =>
    if timeoutMs ≤ env.clock i then
      some ⟨⟨0, 0, false⟩, true, ExitPath.timedOut⟩
    else if env.sessionOk i = false then
      some ⟨⟨0, 0, false⟩, false, ExitPath.sessionLoss⟩
    else
      match alertNums (env.status i) with
      | some (s, f) => some (alertBranch env s f)
      | none =>
        if textTruthy (env.status i).infoText then
          match parse_progress (((env.status i).infoText).getD "") with
          | some (cur, tot) =>
            if cur = tot ∧ 0 < tot then some (queuedBranch env tot)
            else if stallFires
                (nextNoChange (((env.status i).infoText).getD "") lastProgress noChange)
                (env.clock i -
                  nextLastPT (((env.status i).infoText).getD "") lastProgress
                    (env.clock i) lastPT)
                (env.status i).stopBtnExists then
              some ⟨⟨0, 0, true⟩, true, ExitPath.stall⟩
            else
              waitLoop env timeoutMs fuel (i + 1) (((env.status i).infoText).getD "")
                (nextNoChange (((env.status i).infoText).getD "") lastProgress noChange)
                (nextLastPT (((env.status i).infoText).getD "") lastProgress
                  (env.clock i) lastPT)
          | none =>
            if stallFires
                (nextNoChange (((env.status i).infoText).getD "") lastProgress noChange)
                (env.clock i -
                  nextLastPT (((env.status i).infoText).getD "") lastProgress
                    (env.clock i) lastPT)
                (env.status i).stopBtnExists then
              some ⟨⟨0, 0, true⟩, true, ExitPath.stall⟩
            else
              waitLoop env timeoutMs fuel (i + 1) (((env.status i).infoText).getD "")
                (nextNoChange (((env.status i).infoText).getD "") lastProgress noChange)
                (nextLastPT (((env.status i).infoText).getD "") lastProgress
                  (env.clock i) lastPT)
        else
          if (env.status i).stopBtnExists = false ∧ (env.status i).infoText = none then
            some ⟨⟨0, 0, true⟩, true, ExitPath.stopGone⟩
          else waitLoop env timeoutMs fuel (i + 1) lastProgress noChange lastPT

/-- `wait_for_download_completion(timeout_ms)` from its initial state
(`last_progress = ""`, `no_change_count = 0`; the initial
`last_progress_time` is taken as the start time, which only matters for
runs whose progress text never becomes truthy). -/
def wait_for_download_completion (env : WaitEnv) (timeoutMs fuel : Nat) :
    Option WaitOutcome :=
  waitLoop env timeoutMs fuel 0 "" 0 0

/-! ### C6 -/

theorem alertBranch_saved (env : WaitEnv) (s f : Nat) :
    (alertBranch env s f).saved = true := by
  unfold alertBranch
  split <;> rfl

theorem queuedBranch_saved (env : WaitEnv) (total : Nat) :
    (queuedBranch env total).saved = true := by
  unfold queuedBranch
  split <;> rfl

theorem waitLoop_saves (env : WaitEnv) (tm : Nat) :
    ∀ fuel i lp nc lpt out,
      waitLoop env tm fuel i lp nc lpt = some out →
      out.path ≠ ExitPath.sessionLoss → out.saved = true := by
  intro fuel
  induction fuel with
  | zero =>
    intro i lp nc lpt out h
    simp [waitLoop] at h
  | succ fuel ih =>
    intro i lp nc lpt out h hne
    unfold waitLoop at h
    split at h
    · injection h with h
      rw [← h]
    · split at h
      · injection h with h
        rw [← h] at hne
        exact absurd rfl hne
      · split at h
        · injection h with h
          rw [← h]
          exact alertBranch_saved env _ _
        · split at h
          · split at h
            · split at h
              · injection h with h
                rw [← h]
                exact queuedBranch_saved env _
              · split at h
                · injection h with h
                  rw [← h]
                · exact ih _ _ _ _ _ h hne
            · split at h
              · injection h with h
                rw [← h]
              · exact ih _ _ _ _ _ h hne
          · split at h
            · injection h with h
              rw [← h]
            · exact ih _ _ _ _ _ h hne

/-- An environment whose session check fails at once. -/
def envC6dead : WaitEnv :=
  { sessionOk := fun _ => false
    status := fun _ => ⟨none, false, false, none⟩
    clock := fun _ => 0
    alertShowing := fun _ => false
    alertResultText := fun _ => ""
    batchLen := fun _ => 0
    pendingLen := fun _ => 0 }

/-- C6 counterexample: the session-loss abort (src lines 869-872) returns
`{success: 0, failure: 0, completed: False}` without calling
`save_downloaded_files_db` — one terminal path performs no durable save. -/
theorem C6_session_loss_no_save_counterexample :
    wait_for_download_completion envC6dead 600000 5
      = some ⟨⟨0, 0, false⟩, false, ExitPath.sessionLoss⟩ := by
  decide

/-- C6 (amended): every modelled terminal path of the reconciliation loop
— alert tally (early or sub-timeout), queued fallback (early or
sub-timeout), stall rule, stop-indicator disappearance, and the overall
timeout — performs a durable ledger save before returning; the one
exception is the session-loss abort, which returns without saving. -/
theorem C6_terminal_paths_save (env : WaitEnv) (tm fuel : Nat) (out : WaitOutcome)
    (h : wait_for_download_completion env tm fuel = some out)
    (hne : out.path ≠ ExitPath.sessionLoss) : out.saved = true :=
  waitLoop_saves env tm fuel 0 "" 0 0 out h hne

/-- An environment that times out immediately (clock at the timeout). -/
def envC6timeout : WaitEnv :=
  { sessionOk := fun _ => true
    status := fun _ => ⟨none, false, false, none⟩
    clock := fun _ => 600000
    alertShowing := fun _ => false
    alertResultText := fun _ => ""
    batchLen := fun _ => 0
    pendingLen := fun _ => 0 }

theorem C6_terminal_paths_save_witness :
    wait_for_download_completion envC6timeout 600000 5
        = some ⟨⟨0, 0, false⟩, true, ExitPath.timedOut⟩ ∧
    (⟨⟨0, 0, false⟩, true, ExitPath.timedOut⟩ : WaitOutcome).saved = true :=
  ⟨by decide,
    C6_terminal_paths_save envC6timeout 600000 5 ⟨⟨0, 0, false⟩, true, ExitPath.timedOut⟩
      (by decide) (by decide)⟩

/-! ### C9 -/

/-- The progress text reports all items queued: `"(n/n)"` with `n > 0`
(the guard of the all-queued branch, src line 954). -/
def queuedCompleteText (t : String) : Bool :=
  match parse_progress t with
  | some (cur, tot) => decide (cur = tot) && decide (0 < tot)
  | none => false

theorem stall_aux (env : WaitEnv) (tm N : Nat) (p : String)
    (Hs : ∀ i, env.sessionOk i = true)
    (Hst : ∀ i, env.status i = ⟨some p, false, false, none⟩)
    (Hp : p ≠ "")
    (Hq : queuedCompleteText p = false)
    (Hclk : ∀ j, j ≤ N → env.clock j < tm)
    (HN : 31 ≤ N)
    (Hfire : 60000 < env.clock N - env.clock 0) :
    ∀ r fuel i, i + r = N → 1 ≤ i → r + 1 ≤ fuel →
      waitLoop env tm fuel i p (i - 1) (env.clock 0)
        = some ⟨⟨0, 0, true⟩, true, ExitPath.stall⟩ := by
  intro r
  induction r with
  | zero =>
    intro fuel i hiN hi hf
    obtain ⟨f, rfl⟩ : ∃ f, fuel = f + 1 := ⟨fuel - 1, by omega⟩
    have hiN' : i = N := by omega
    subst hiN'
    have h1 : ¬ (tm ≤ env.clock i) := by
      have := Hclk i (by omega)
      omega
    have h2 : ¬ (env.sessionOk i = false) := by
      rw [Hs i]
      simp
    have halert : alertNums (env.status i) = none := by
      rw [Hst i]
      rfl
    have htr : textTruthy (env.status i).infoText = true := by
      rw [Hst i]
      show (!(p == "")) = true
      simp [Hp]
    have hgetD : ((env.status i).infoText).getD "" = p := by
      rw [Hst i]
      rfl
    have hnc : nextNoChange p p (i - 1) = i := by
      unfold nextNoChange
      simp
      omega
    have hlpt : nextLastPT p p (env.clock i) (env.clock 0) = env.clock 0 := by
      unfold nextLastPT
      simp
    have hstop : (env.status i).stopBtnExists = false := by
      rw [Hst i]
    have hsf : stallFires i (env.clock i - env.clock 0) false = true := by
      unfold stallFires
      have h30 : 30 < i := by omega
      simp [h30, Hfire]
    unfold waitLoop
    rw [if_neg h1, if_neg h2]
    simp only [halert, htr, hgetD, hnc, hlpt, hstop, if_true]
    cases hpp : parse_progress p with
    | some pr =>
      obtain ⟨cur, tot⟩ := pr
      have hnq : ¬ (cur = tot ∧ 0 < tot) := by
        intro hct
        unfold queuedCompleteText at Hq
        rw [hpp] at Hq
        simp [hct.1, hct.2] at Hq
      simp only [if_neg hnq, hsf, if_true]
    | none =>
      simp only [hsf, if_true]
  | succ r ih =>
    intro fuel i hiN hi hf
    obtain ⟨f, rfl⟩ : ∃ f, fuel = f + 1 := ⟨fuel - 1, by omega⟩
    have h1 : ¬ (tm ≤ env.clock i) := by
      have := Hclk i (by omega)
      omega
    have h2 : ¬ (env.sessionOk i = false) := by
      rw [Hs i]
      simp
    have halert : alertNums (env.status i) = none := by
      rw [Hst i]
      rfl
    have htr : textTruthy (env.status i).infoText = true := by
      rw [Hst i]
      show (!(p == "")) = true
      simp [Hp]
    have hgetD : ((env.status i).infoText).getD "" = p := by
      rw [Hst i]
      rfl
    have hnc : nextNoChange p p (i - 1) = i := by
      unfold nextNoChange
      simp
      omega
    have hlpt : nextLastPT p p (env.clock i) (env.clock 0) = env.clock 0 := by
      unfold nextLastPT
      simp
    have hstop : (env.status i).stopBtnExists = false := by
      rw [Hst i]
    have hrec : waitLoop env tm f (i + 1) p ((i + 1) - 1) (env.clock 0)
        = some ⟨⟨0, 0, true⟩, true, ExitPath.stall⟩ :=
      ih f (i + 1) (by omega) (by omega) (by omega)
    have hrec' : waitLoop env tm f (i + 1) p i (env.clock 0)
        = some ⟨⟨0, 0, true⟩, true, ExitPath.stall⟩ := by
      have : (i + 1) - 1 = i := by omega
      rw [this] at hrec
      exact hrec
    unfold waitLoop
    rw [if_neg h1, if_neg h2]
    simp only [halert, htr, hgetD, hnc, hlpt, hstop, if_true]
    cases hpp : parse_progress p with
    | some pr =>
      obtain ⟨cur, tot⟩ := pr
      have hnq : ¬ (cur = tot ∧ 0 < tot) := by
        intro hct
        unfold queuedCompleteText at Hq
        rw [hpp] at Hq
        simp [hct.1, hct.2] at Hq
      simp only [if_neg hnq]
      cases hsf : stallFires i (env.clock i - env.clock 0) false
      · simp only [hsf, Bool.false_eq_true, if_false]
        exact hrec'
      · simp only [hsf, if_true]
    | none =>
      cases hsf : stallFires i (env.clock i - env.clock 0) false
      · simp only [hsf, Bool.false_eq_true, if_false]
        exact hrec'
      · simp only [hsf, if_true]

/-- C9 (amended): if the poll trace keeps the session valid, never shows
an alert, keeps a fixed non-empty progress text that is not an all-queued
`"(n/n)"` report, shows no stop indicator, stays under the overall
timeout through tick `N ≥ 31`, and more than 60 seconds have elapsed
between the first tick and tick `N`, then the loop returns
`completed = True` via the stall rule. -/
theorem C9_stall_rule (env : WaitEnv) (tm N fuel : Nat) (p : String)
    (Hs : ∀ i, env.sessionOk i = true)
    (Hst : ∀ i, env.status i = ⟨some p, false, false, none⟩)
    (Hp : p ≠ "")
    (Hq : queuedCompleteText p = false)
    (Hclk : ∀ j, j ≤ N → env.clock j < tm)
    (HN : 31 ≤ N)
    (Hfire : 60000 < env.clock N - env.clock 0)
    (Hfuel : N + 2 ≤ fuel) :
    wait_for_download_completion env tm fuel
      = some ⟨⟨0, 0, true⟩, true, ExitPath.stall⟩ := by
  unfold wait_for_download_completion
  obtain ⟨f, rfl⟩ : ∃ f, fuel = f + 1 := ⟨fuel - 1, by omega⟩
  have h1 : ¬ (tm ≤ env.clock 0) := by
    have := Hclk 0 (by omega)
    omega
  have h2 : ¬ (env.sessionOk 0 = false) := by
    rw [Hs 0]
    simp
  have halert : alertNums (env.status 0) = none := by
    rw [Hst 0]
    rfl
  have htr : textTruthy (env.status 0).infoText = true := by
    rw [Hst 0]
    show (!(p == "")) = true
    simp [Hp]
  have hgetD : ((env.status 0).infoText).getD "" = p := by
    rw [Hst 0]
    rfl
  have hnc : nextNoChange p "" 0 = 0 := by
    unfold nextNoChange
    simp [Hp]
  have hlpt : nextLastPT p "" (env.clock 0) 0 = env.clock 0 := by
    unfold nextLastPT
    simp [Hp]
  have hstop : (env.status 0).stopBtnExists = false := by
    rw [Hst 0]
  have hsf : stallFires 0 (env.clock 0 - env.clock 0) false = false := rfl
  have hrec : waitLoop env tm f 1 p 0 (env.clock 0)
      = some ⟨⟨0, 0, true⟩, true, ExitPath.stall⟩ := by
    have := stall_aux env tm N p Hs Hst Hp Hq Hclk HN Hfire (N - 1) f 1
      (by omega) (by omega) (by omega)
    simpa using this
  unfold waitLoop
  rw [if_neg h1, if_neg h2]
  simp only [halert, htr, hgetD, hnc, hlpt, hstop, if_true]
  cases hpp : parse_progress p with
  | some pr =>
    obtain ⟨cur, tot⟩ := pr
    have hnq : ¬ (cur = tot ∧ 0 < tot) := by
      intro hct
      unfold queuedCompleteText at Hq
      rw [hpp] at Hq
      simp [hct.1, hct.2] at Hq
    simp only [if_neg hnq, hsf, Bool.false_eq_true, if_false]
    exact hrec
  | none =>
    simp only [hsf, Bool.false_eq_true, if_false]
    exact hrec

/-- The C9 scenario environment: progress text fixed at `"(2/5)"`, no
stop indicator, no alert, valid session, and a clock where 31 ticks span
61.07 seconds. -/
def envC9 : WaitEnv :=
  { sessionOk := fun _ => true
    status := fun _ => ⟨some "(2/5)", false, false, none⟩
    clock := fun j => 1970 * j
    alertShowing := fun _ => false
    alertResultText := fun _ => ""
    batchLen := fun _ => 0
    pendingLen := fun _ => 0 }

theorem C9_stall_rule_witness :
    wait_for_download_completion envC9 600000 34
      = some ⟨⟨0, 0, true⟩, true, ExitPath.stall⟩ :=
  C9_stall_rule envC9 600000 31 34 "(2/5)"
    (fun _ => rfl) (fun _ => rfl) (by decide) (by decide)
    (fun j hj => by
      show 1970 * j < 600000
      omega)
    (by decide) (by decide) (by decide)

/-- The env refuting C9 as stated: the unchanged, always-present progress
text is `"(3/3)"` (no stop indicator, no alert, session valid, 31 ticks
spanning more than 60 seconds), yet the batch does not complete with
`completed = True`. -/
def envC9cex : WaitEnv :=
  { sessionOk := fun _ => true
    status := fun _ => ⟨some "(3/3)", false, false, none⟩
    clock := fun j => 1970 * j
    alertShowing := fun _ => false
    alertResultText := fun _ => ""
    batchLen := fun _ => 0
    pendingLen := fun _ => 0 }

/-- C9 counterexample: on a trace satisfying all the claim's conditions
(progress text present and unchanged for every tick, more than 60s across
31 ticks, no stop indicator, no success alert ever) the loop returns at
the very first tick through the all-queued branch with
`completed = False` — the stall rule never gets to run. -/
theorem C9_stall_rule_counterexample :
    wait_for_download_completion envC9cex 600000 40
      = some ⟨⟨0, 0, false⟩, true, ExitPath.queuedSub⟩ ∧
    textTruthy (envC9cex.status 0).infoText = true ∧
    (envC9cex.status 31).stopBtnExists = false ∧
    (envC9cex.status 31).alertVisible = false ∧
    60000 < envC9cex.clock 31 - envC9cex.clock 0 := by
  refine ⟨by decide, by decide, by decide, by decide, by decide⟩

/-! ### The page retry loop

`download_playback`, per-page retry block (src lines 1248-1310).  One
`AttemptEnv` describes iteration `rc` of the `while retry_count <
max_retries` loop: the session check at its top, the outcome of
`re_login_and_resume` if the session was invalid, the outcomes of
`select_all_files` / `start_download`, and the reconciliation result.
Every iteration that does not `break` increments `retry_count`, so the
iteration index equals the current `retry_count`. -/

structure AttemptEnv where
  sessionOk : Bool
  resumeOk : Bool
  selectOk : Bool
  startOk : Bool
  result : WaitResult
  deriving DecidableEq

/-- Which `break` (or loop end) released the page. -/
inductive PageExit where
  | resumeFailed : PageExit
  | selectFailed : PageExit
  | startFailed : PageExit
  | incomplete : PageExit
  | maxRetries : PageExit
  | pageDone : PageExit
  | whileEnd : PageExit
  | gasOut : PageExit
  deriving DecidableEq

/-- `attempts` counts executions of the select-all/start/await sequence;
`delays` lists the backoff sleeps performed (seconds, in order);
`resumes` counts `re_login_and_resume` calls. -/
structure PageOutcome where
  attempts : Nat
  delays : List Nat
  resumes : Nat
  exit : PageExit
  deriving DecidableEq

/-- `retry_delay = 5 * (2 ** (retry_count - 1))` slept only when
`retry_count > 0` (src lines 1260-1267); delays accumulate reversed. -/
def pageDelays (rc : Nat) (ds : List Nat) : List Nat :=
  if 0 < rc then (5 * 2 ^ (rc - 1)) :: ds else ds

/-- The retry loop body (src lines 1252-1310); `gas` bounds the recursion
(any `gas > max_retries` is enough, since every continuing iteration
increments `retry_count`). -/
def pageLoopAux (env : Nat → AttemptEnv) (maxRetries : Nat) :
    Nat → Nat → Nat → Nat → List Nat → PageOutcome
  | 0, _, att, rs, ds => ⟨att, ds.reverse, rs, PageExit.gasOut⟩
  | gas + 1, rc, att, rs, ds =>
    if maxRetries ≤ rc then ⟨att, ds.reverse, rs, PageExit.whileEnd⟩
    else if (env rc).sessionOk = false ∧ (env rc).resumeOk = false then
      ⟨att, ds.reverse, rs + 1, PageExit.resumeFailed⟩
    else if (env rc).selectOk = false then
      ⟨att + 1, (pageDelays rc ds).reverse,
        (if (env rc).sessionOk then rs else rs + 1), PageExit.selectFailed⟩
    else if (env rc).startOk = false then
      ⟨att + 1, (pageDelays rc ds).reverse,
        (if (env rc).sessionOk then rs else rs + 1), PageExit.startFailed⟩
    else if (env rc).result.completed = false then
      ⟨att + 1, (pageDelays rc ds).reverse,
        (if (env rc).sessionOk then rs else rs + 1), PageExit.incomplete⟩
    else if 0 < (env rc).result.failure then
      if rc + 1 < maxRetries then
        pageLoopAux env maxRetries gas (rc + 1) (att + 1)
          (if (env rc).sessionOk then rs else rs + 1) (pageDelays rc ds)
      else
        ⟨att + 1, (pageDelays rc ds).reverse,
          (if (env rc).sessionOk then rs else rs + 1), PageExit.maxRetries⟩
    else
      ⟨att + 1, (pageDelays rc ds).reverse,
        (if (env rc).sessionOk then rs else rs + 1), PageExit.pageDone⟩

/-- The per-page retry loop with `max_retries = 3` (src line 1249). -/
def page_retry_loop (env : Nat → AttemptEnv) : PageOutcome :=
  pageLoopAux env 3 4 0 0 0 []

/-! ### C7 -/

/-- C7 (amended): a first batch that comes back not completed — which is
what a mid-batch session loss produces, indistinguishable from a timeout —
makes the retry loop abandon the page immediately: one attempt, no
backoff, no resume, exit through the `not completed` break. -/
theorem C7_inconclusive_abandons (env : Nat → AttemptEnv)
    (hs : (env 0).sessionOk = true) (hsel : (env 0).selectOk = true)
    (hst : (env 0).startOk = true) (hcomp : (env 0).result.completed = false) :
    page_retry_loop env = ⟨1, [], 0, PageExit.incomplete⟩ := by
  unfold page_retry_loop pageLoopAux
  simp [hs, hsel, hst, hcomp, pageDelays]

/-- The wait environment of a mid-batch session loss. -/
def envC7dead : WaitEnv :=
  { sessionOk := fun _ => false
    status := fun _ => ⟨none, false, false, none⟩
    clock := fun _ => 0
    alertShowing := fun _ => false
    alertResultText := fun _ => ""
    batchLen := fun _ => 0
    pendingLen := fun _ => 0 }

/-- The wait environment of an overall timeout. -/
def envC7timeout : WaitEnv :=
  { sessionOk := fun _ => true
    status := fun _ => ⟨none, false, false, none⟩
    clock := fun _ => 600000
    alertShowing := fun _ => false
    alertResultText := fun _ => ""
    batchLen := fun _ => 0
    pendingLen := fun _ => 0 }

/-- A page whose first reconciliation returns the inconclusive result. -/
def pageEnvC7 : Nat → AttemptEnv :=
  fun _ => ⟨true, true, true, true, ⟨0, 0, false⟩⟩

/-- C7 counterexample: a mid-batch session loss aborts the batch with the
same `{0, 0, completed: False}` result as a timeout, and the retry loop
reacts to that result by abandoning the page after the single attempt —
no resume, no re-attempt of the same page — contrary to the claim. -/
theorem C7_session_loss_counterexample :
    (wait_for_download_completion envC7dead 600000 5).map WaitOutcome.res
        = some ⟨0, 0, false⟩ ∧
    (wait_for_download_completion envC7timeout 600000 5).map WaitOutcome.res
        = some ⟨0, 0, false⟩ ∧
    page_retry_loop pageEnvC7 = ⟨1, [], 0, PageExit.incomplete⟩ := by
  refine ⟨by decide, by decide, by decide⟩

theorem C7_inconclusive_abandons_witness :
    page_retry_loop pageEnvC7 = ⟨1, [], 0, PageExit.incomplete⟩ :=
  C7_inconclusive_abandons pageEnvC7 rfl rfl rfl rfl

/-! ### C8 -/

/-- C8: when the session stays valid, select-all and start always succeed
and every batch completes reporting `failure > 0`, the page retry loop
performs exactly 3 attempts, sleeping 5 seconds before the second and 10
seconds before the third, and then abandons the page. -/
theorem C8_retry_bound (env : Nat → AttemptEnv)
    (h : ∀ k, k < 3 → (env k).sessionOk = true ∧ (env k).selectOk = true ∧
        (env k).startOk = true ∧ (env k).result.completed = true ∧
        0 < (env k).result.failure) :
    page_retry_loop env = ⟨3, [5, 10], 0, PageExit.maxRetries⟩ := by
  obtain ⟨hs0, hsel0, hst0, hc0, hf0⟩ := h 0 (by omega)
  obtain ⟨hs1, hsel1, hst1, hc1, hf1⟩ := h 1 (by omega)
  obtain ⟨hs2, hsel2, hst2, hc2, hf2⟩ := h 2 (by omega)
  unfold page_retry_loop
  simp [pageLoopAux, pageDelays, hs0, hsel0, hst0, hc0, hf0,
    hs1, hsel1, hst1, hc1, hf1, hs2, hsel2, hst2, hc2, hf2]

/-- A failure-rate fixture: every batch completes with one failure. -/
def pageEnvC8 : Nat → AttemptEnv :=
  fun _ => ⟨true, true, true, true, ⟨2, 1, true⟩⟩

theorem C8_retry_bound_witness :
    page_retry_loop pageEnvC8 = ⟨3, [5, 10], 0, PageExit.maxRetries⟩ :=
  C8_retry_bound pageEnvC8 (fun _ _ => ⟨rfl, rfl, rfl, rfl, Nat.one_pos⟩)
